import Mathlib

/-!
# Verification development for the Liquity-style stablecoin accounting model

This file gives a shallow embedding, in Lean 4, of the core accounting
components of the Python reference model (`core/stability_pool.py`,
`core/active_pool.py`, `core/coll_surplus_pool.py`, `core/trove_manager.py`)
and proves or refutes a fixed list of behavioural claims about them.

Modelling conventions:
* Monetary amounts and fixed-point quantities are modelled exactly.  The
  Stability Pool and CollSurplus Pool, whose arithmetic is written with
  Python's integer floor division `//` and `%`, are embedded over `ℤ` with
  `Int.fdiv`/`Int.fmod` (which agree with Python's floor-division semantics).
  The TroveManager and ActivePool, whose arithmetic mixes integer-valued
  constants with Python true division `/`, are embedded over `ℚ` with exact
  division; where the source uses `//` on `ℚ`-valued data, the embedding
  takes the floor.  Python float literals such as `1e18` denote the
  corresponding exact integers.
* Dictionaries whose reads all use a default (`.get(k, d)`) are embedded as
  total functions; keys that were never written hold the default, which is
  observationally identical to the Python dictionaries.
* `time.time()` is embedded as an explicit `now : ℤ` parameter.
* A Python `raise` inside a method is embedded as an error result that still
  carries the state object as the method leaves it (Python exceptions do not
  roll back mutations already performed on `self`).
* External collaborators: the components are modelled in the standalone
  configuration of their constructors (collaborator references `None`),
  except where a claim requires a collaborator: the price oracle is an
  explicit `price` argument, and the ordered-trove index is a list (see
  `SortedTroves` below).
-/

/-! ## Stability Pool (`core/stability_pool.py`), embedded over `ℤ` -/

namespace SP

/-- `P_PRECISION = 1e36` -/
def P_PRECISION : ℤ := 10 ^ 36

/-- `SCALE_FACTOR = 1e9` -/
def SCALE_FACTOR : ℤ := 10 ^ 9

/-- `MAX_SCALE_FACTOR_EXPONENT = 8` -/
def MAX_SCALE_FACTOR_EXPONENT : ℤ := 8

/-- `SCALE_SPAN = 2` -/
def SCALE_SPAN : ℕ := 2

/-- `MIN_BOLD_IN_SP = 1e18` (minimum 1 BOLD must remain in the pool) -/
def MIN_BOLD_IN_SP : ℤ := 10 ^ 18

/-- Depositor snapshot (`Snapshots` dataclass): sums `S`, `B`, product `P`
and the scale at the depositor's last interaction. -/
structure Snapshots where
  S : ℤ
  P : ℤ
  B : ℤ
  scale : ℤ
  deriving DecidableEq

/-- The default snapshot `Snapshots(S=0, P=self.P_PRECISION, B=0, scale=0)`
used by every `deposit_snapshots.get` read. -/
def defaultSnapshots : Snapshots := ⟨0, P_PRECISION, 0, 0⟩

/-- State of the `StabilityPool` object.  Depositors are addressed by `ℕ`.
`deposits`, `deposit_snapshots` and `stashed_coll` are dictionaries read with
defaults in the source, hence total functions here; `scale_to_S`/`scale_to_B`
are dictionaries whose absent keys are only ever read through `.get(_, 0)` or
initialised to `0` before use, hence total functions with default `0`. -/
structure State where
  coll_balance : ℤ
  total_bold_deposits : ℤ
  yield_gains_owed : ℤ
  yield_gains_pending : ℤ
  deposits : ℕ → ℤ
  deposit_snapshots : ℕ → Snapshots
  stashed_coll : ℕ → ℤ
  P : ℤ
  current_scale : ℤ
  scale_to_S : ℤ → ℤ
  scale_to_B : ℤ → ℤ

/-- The freshly constructed pool (`__init__`). -/
def initState : State where
  coll_balance := 0
  total_bold_deposits := 0
  yield_gains_owed := 0
  yield_gains_pending := 0
  deposits := fun _ => 0
  deposit_snapshots := fun _ => defaultSnapshots
  stashed_coll := fun _ => 0
  P := P_PRECISION
  current_scale := 0
  scale_to_S := fun _ => 0
  scale_to_B := fun _ => 0

/-- `get_depositor_coll_gain`: reconstruct a depositor's collateral gain from
the per-scale sums `S`, capped by the pool's collateral balance. -/
def get_depositor_coll_gain (s : State) (d : ℕ) : ℤ :=
  let initial_deposit := s.deposits d
  if initial_deposit = 0 then 0
  else
    let snap := s.deposit_snapshots d
    let normalized_gains :=
      (s.scale_to_S snap.scale - snap.S)
      + (s.scale_to_S (snap.scale + 1)).fdiv (SCALE_FACTOR ^ 1)
      + (s.scale_to_S (snap.scale + 2)).fdiv (SCALE_FACTOR ^ 2)
    let coll_gain := (initial_deposit * normalized_gains).fdiv snap.P
    min coll_gain s.coll_balance

/-- `get_depositor_yield_gain`: same shape over the `B` sums, capped by
`yield_gains_owed`. -/
def get_depositor_yield_gain (s : State) (d : ℕ) : ℤ :=
  let initial_deposit := s.deposits d
  if initial_deposit = 0 then 0
  else
    let snap := s.deposit_snapshots d
    let normalized_gains :=
      (s.scale_to_B snap.scale - snap.B)
      + (s.scale_to_B (snap.scale + 1)).fdiv (SCALE_FACTOR ^ 1)
      + (s.scale_to_B (snap.scale + 2)).fdiv (SCALE_FACTOR ^ 2)
    let yield_gain := (initial_deposit * normalized_gains).fdiv snap.P
    min yield_gain s.yield_gains_owed

/-- `get_compounded_bold_deposit`: `deposit * P // snapshot.P`, scaled down
by `SCALE_FACTOR ** scale_diff` when the scale advanced, and `0` once
`scale_diff > MAX_SCALE_FACTOR_EXPONENT`. -/
def get_compounded_bold_deposit (s : State) (d : ℕ) : ℤ :=
  let initial_deposit := s.deposits d
  if initial_deposit = 0 then 0
  else
    let snap := s.deposit_snapshots d
    let scale_diff := s.current_scale - snap.scale
    if MAX_SCALE_FACTOR_EXPONENT < scale_diff then 0
    else
      let compounded := (initial_deposit * s.P).fdiv snap.P
      if 0 < scale_diff then compounded.fdiv (SCALE_FACTOR ^ scale_diff.toNat)
      else compounded

/-- `_update_deposit_and_snapshots`: rewrite the depositor's deposit, stash
and snapshot.  A zero deposit deletes the snapshot, which reads back as the
default one. -/
def update_deposit_and_snapshots (s : State) (d : ℕ) (new_deposit new_stashed_coll : ℤ) :
    State :=
  let s := { s with
    deposits := Function.update s.deposits d new_deposit
    stashed_coll := Function.update s.stashed_coll d new_stashed_coll }
  if new_deposit = 0 then
    { s with deposit_snapshots := Function.update s.deposit_snapshots d defaultSnapshots }
  else
    let snap : Snapshots :=
      ⟨s.scale_to_S s.current_scale, s.P, s.scale_to_B s.current_scale, s.current_scale⟩
    { s with deposit_snapshots := Function.update s.deposit_snapshots d snap }

/-- `_update_total_bold_deposits`: returns the updated state and the new
total. -/
def update_total_bold_deposits (s : State) (deposit_increase deposit_decrease : ℤ) :
    State × ℤ :=
  if deposit_increase = 0 ∧ deposit_decrease = 0 then (s, s.total_bold_deposits)
  else
    let new_total := s.total_bold_deposits + deposit_increase - deposit_decrease
    ({ s with total_bold_deposits := new_total }, new_total)

/-- `_decrease_yield_gains_owed` -/
def decrease_yield_gains_owed (s : State) (amount : ℤ) : State :=
  if amount = 0 then s
  else { s with yield_gains_owed := s.yield_gains_owed - amount }

/-- `_send_coll_gain_to_depositor`: deducts from the internal collateral
balance (the token transfer itself is outside the model). -/
def send_coll_gain_to_depositor (s : State) (coll_amount : ℤ) : State :=
  if coll_amount = 0 then s
  else { s with coll_balance := s.coll_balance - coll_amount }

/-- Result of a Stability Pool operation.  `err` carries the state in which
the Python exception leaves the object (mutations already applied to `self`
persist across a `raise`). -/
inductive Result where
  | err (s : State)
  | ok (s : State) (amount : ℤ)

/-- Whether a `Result` is an error. -/
def Result.isErr : Result → Bool
  | .err _ => true
  | .ok _ _ => false

/-- The state a `Result` carries (for an error, the state the exception
leaves behind). -/
def Result.state : Result → State
  | .err s => s
  | .ok s _ => s

/-- `withdraw_from_sp(depositor, amount, do_claim)` in the standalone
configuration (`bold_token` and `active_pool` are `None`, so the token
transfers and the interest mint are skipped, exactly as in the source). -/
def withdraw_from_sp (s : State) (d : ℕ) (amount : ℤ) (do_claim : Bool) : Result :=
  let initial_deposit := s.deposits d
  if initial_deposit ≤ 0 then .err s
  else
    let current_coll_gain := get_depositor_coll_gain s d
    let current_yield_gain := get_depositor_yield_gain s d
    let compounded := get_compounded_bold_deposit s d
    let bold_to_withdraw := min amount compounded
    let kept_yield_gain := if do_claim then 0 else current_yield_gain
    let new_deposit := compounded - bold_to_withdraw + kept_yield_gain
    let new_stashed_coll := if do_claim then 0 else s.stashed_coll d + current_coll_gain
    let coll_to_send := if do_claim then s.stashed_coll d + current_coll_gain else 0
    let s := update_deposit_and_snapshots s d new_deposit new_stashed_coll
    let s := decrease_yield_gains_owed s current_yield_gain
    let p := update_total_bold_deposits s kept_yield_gain bold_to_withdraw
    let s := p.1
    let new_total_bold_deposits := p.2
    let s := if 0 < coll_to_send then send_coll_gain_to_depositor s coll_to_send else s
    if new_total_bold_deposits < MIN_BOLD_IN_SP then .err s
    else .ok s bold_to_withdraw

/-- The total the pool would be left with by
`withdraw_from_sp s d amount do_claim`, read off the same computation the
source performs (`new_total_bold_deposits` at line 224). -/
def withdraw_new_total (s : State) (d : ℕ) (amount : ℤ) (do_claim : Bool) : ℤ :=
  let compounded := get_compounded_bold_deposit s d
  let bold_to_withdraw := min amount compounded
  let kept_yield_gain := if do_claim then 0 else get_depositor_yield_gain s d
  if kept_yield_gain = 0 ∧ bold_to_withdraw = 0 then s.total_bold_deposits
  else s.total_bold_deposits + kept_yield_gain - bold_to_withdraw

/-- The threshold `P_PRECISION // SCALE_FACTOR` below which `offset`
rescales. -/
def P_THRESHOLD : ℤ := P_PRECISION.fdiv SCALE_FACTOR

/-- The `while new_P < P_PRECISION // SCALE_FACTOR` rescale loop of
`offset`.  Returns the final `(new_P, current_scale)`.  (Initialising the
`scale_to_S`/`scale_to_B` entries of a fresh scale to `0` is a no-op in the
total-function model of the dictionaries.)  The guard `0 < total ∧ 0 < num`
is needed for termination in Lean; on inputs violating it the Python loop
would not terminate, and `offset` only reaches the loop with
`0 < num.fdiv total`, which implies the guard. -/
def offset_scale_loop (total num scale : ℤ) : ℤ × ℤ :=
  if h : 0 < total ∧ 0 < num ∧ num.fdiv total < P_THRESHOLD then
    offset_scale_loop total (num * SCALE_FACTOR) (scale + 1)
  else (num.fdiv total, scale)
  termination_by (P_THRESHOLD * total - num).toNat
  decreasing_by
    obtain ⟨ht, hn, hlt⟩ := h
    have hlt' : num < P_THRESHOLD * total := by
      have := Int.lt_fdiv_add_one_mul_self num ht
      have h1 : num.fdiv total + 1 ≤ P_THRESHOLD := hlt
      calc num < (num.fdiv total + 1) * total := this
        _ ≤ P_THRESHOLD * total := by
              exact mul_le_mul_of_nonneg_right h1 (le_of_lt ht)
    have hSF : (2 : ℤ) ≤ SCALE_FACTOR := by norm_num [SCALE_FACTOR]
    have hgrow : num + 1 ≤ num * SCALE_FACTOR := by nlinarith
    omega

/-- `offset(debt_to_offset, coll_to_add)`: bump `S[current_scale]`, compute
the new product, fail if it is non-positive, rescale while it is below the
threshold, then move the offset collateral and debt
(`_move_offset_coll_and_debt`; the token burn and the Active Pool pull are
skipped in the standalone configuration).  A zero `total_bold_deposits`
raises `ZeroDivisionError` before any mutation. -/
def offset (s : State) (debt_to_offset coll_to_add : ℤ) : Result :=
  if s.total_bold_deposits = 0 then .err s
  else
    let newS := s.scale_to_S s.current_scale + (s.P * coll_to_add).fdiv s.total_bold_deposits
    let s1 := { s with scale_to_S := Function.update s.scale_to_S s.current_scale newS }
    let numerator := s1.P * (s1.total_bold_deposits - debt_to_offset)
    let new_P := numerator.fdiv s1.total_bold_deposits
    if new_P ≤ 0 then .err s1
    else
      let r := offset_scale_loop s1.total_bold_deposits numerator s1.current_scale
      let s2 := { s1 with P := r.1, current_scale := r.2 }
      let s3 := { s2 with
        total_bold_deposits := s2.total_bold_deposits - debt_to_offset
        coll_balance := s2.coll_balance + coll_to_add }
      .ok s3 0

end SP

/-! ## Collateral Surplus Pool (`core/coll_surplus_pool.py`), over `ℤ` -/

namespace CSP

/-- State of the `CollSurplusPool` object: the total collateral balance and
the per-account claimable balances (a dictionary read with default `0`). -/
structure State where
  coll_balance : ℤ
  balances : ℕ → ℤ

/-- `account_surplus(account, amount)`: credits `amount` to the account and
to the pool total; fails on `amount <= 0` before any mutation. -/
def account_surplus (s : State) (account : ℕ) (amount : ℤ) : Option State :=
  if amount ≤ 0 then none
  else some
    { coll_balance := s.coll_balance + amount
      balances := Function.update s.balances account (s.balances account + amount) }

/-- `claim_coll(account)`: fails if the claimable balance is `<= 0`,
otherwise zeroes it, deducts it from the pool total, and returns it. -/
def claim_coll (s : State) (account : ℕ) : Option (State × ℤ) :=
  let claimable_coll := s.balances account
  if claimable_coll ≤ 0 then none
  else some
    ({ coll_balance := s.coll_balance - claimable_coll
       balances := Function.update s.balances account 0 }, claimable_coll)

end CSP

/-! ## Active Pool interest accrual (`core/active_pool.py`) -/

namespace AP

/-- `ONE_YEAR = 31536000` seconds -/
def ONE_YEAR : ℤ := 31536000

/-- `DECIMAL_PRECISION = 1e18` -/
def DECIMAL_PRECISION : ℤ := 10 ^ 18

/-- The fields of `ActivePool` that `calc_pending_agg_interest` reads. -/
structure State where
  agg_weighted_debt_sum : ℤ
  last_agg_update_time : ℤ
  shutdown_time : ℤ

/-- `calc_pending_agg_interest(current_time)`: returns `0` after shutdown or
for a zero elapsed time; otherwise computes
`(agg_weighted_debt_sum * time_passed) / (ONE_YEAR * DECIMAL_PRECISION)`
with Python's true division `/` (embedded as exact division into `ℚ`) and
then adds `1` when the integer remainder of the same quotient is positive
("ceiling effect", lines 66-70 of the source). -/
def calc_pending_agg_interest (s : State) (current_time : ℤ) : ℚ :=
  if s.shutdown_time ≠ 0 then 0
  else
    let time_passed := current_time - s.last_agg_update_time
    if time_passed = 0 then 0
    else
      let num := s.agg_weighted_debt_sum * time_passed
      let den := ONE_YEAR * DECIMAL_PRECISION
      let interest : ℚ := (num : ℚ) / (den : ℚ)
      if 0 < num % den then interest + 1 else interest

end AP

/-! ## Redistribution accumulators
(`TroveManager._redistribute_debt_and_coll`, `core/trove_manager.py`
lines 773-819), embedded over `ℚ`. -/

namespace Redist

/-- `DECIMAL_PRECISION = 1e18` as a rational. -/
def DECIMAL_PRECISION : ℚ := 10 ^ 18

/-- Python's `%` on real operands: `x % y = x - y * ⌊x / y⌋` (for integral
operands this is the integer remainder). -/
def pymod (x y : ℚ) : ℚ := x - y * (⌊x / y⌋ : ℤ)

/-- The state touched by `_redistribute_debt_and_coll`.  The field
`active_bold_debt` stands for the value `active_pool.get_bold_debt(now)`
read at line 795; it only feeds the `total_active_debt == 0` early return
and is therefore carried as a scalar. -/
structure State where
  L_coll : ℚ
  L_bold_debt : ℚ
  last_coll_error_redistribution : ℚ
  last_bold_debt_error_redistribution : ℚ
  total_stakes : ℚ
  active_pool_coll : ℚ
  default_pool_coll : ℚ
  default_pool_debt : ℚ
  active_bold_debt : ℚ
  total_collateral_snapshot : ℚ

/-- `_redistribute_debt_and_coll(debt, coll)`: after the early returns and
the transfer of `debt`/`coll` to the Default Pool, increments `L_coll` by
`(coll * DECIMAL_PRECISION + last_coll_error_redistribution) / total_stakes`
— Python's true division `/`, not floor division — while carrying
`coll_numerator % total_stakes` as the next error term, and symmetrically
for `L_bold_debt`.  `none` models a raised exception
(pool bounds violations at lines 807-808, or division by a zero
`total_stakes`). -/
def redistribute_debt_and_coll (s : State) (debt coll : ℚ) : Option State :=
  if debt = 0 then some s
  else
    let total_active_debt := s.active_bold_debt - s.default_pool_debt
    if total_active_debt = 0 then some s
    else if debt ≤ 0 then none
    else if coll ≤ 0 ∨ s.active_pool_coll < coll then none
    else if s.total_stakes = 0 then none
    else
      let s := { s with
        default_pool_debt := s.default_pool_debt + debt
        active_pool_coll := s.active_pool_coll - coll
        default_pool_coll := s.default_pool_coll + coll }
      let coll_numerator := coll * DECIMAL_PRECISION + s.last_coll_error_redistribution
      let coll_increase_per_unit_staked := coll_numerator / s.total_stakes
      let s := { s with
        last_coll_error_redistribution := pymod coll_numerator s.total_stakes
        L_coll := s.L_coll + coll_increase_per_unit_staked }
      let debt_numerator := debt * DECIMAL_PRECISION + s.last_bold_debt_error_redistribution
      let debt_increase_per_unit_staked := debt_numerator / s.total_stakes
      let s := { s with
        last_bold_debt_error_redistribution := pymod debt_numerator s.total_stakes
        L_bold_debt := s.L_bold_debt + debt_increase_per_unit_staked }
      some s

end Redist

/-! ## Trove Manager (`core/trove_manager.py`), embedded over `ℚ`

The manager is modelled in the standalone configuration of its constructor
(`active_pool`, `stability_pool`, `default_pool`, `coll_surplus_pool`,
`bold_token` are `None`, so every call guarded by `if self.<pool>:` is
skipped, as in the source), with two exceptions required by the claims:
* the price oracle is an explicit `price` argument
  (spec: `fetchPrice() -> price`);
* `sorted_troves` — the external ordered-trove index.  Modelled from the
  spec: the index is kept as a list of trove ids ordered ascending by
  effective interest rate, and its `remove`/`remove_from_batch` operations
  delete the given trove id from the index (`List.erase`);
* `stability_pool.get_total_bold_deposits()` (read by
  `batch_liquidate_troves`) is carried as the scalar field
  `sp_total_bold_deposits`, and `stability_pool.offset` decrements it.
-/

namespace TM

/-- `DECIMAL_PRECISION = 1e18` -/
def DECIMAL_PRECISION : ℚ := 10 ^ 18

/-- `MIN_DEBT = 2000 * DECIMAL_PRECISION` -/
def MIN_DEBT : ℚ := 2000 * DECIMAL_PRECISION

/-- `ONE_YEAR_IN_SECONDS = 365 * 24 * 60 * 60` -/
def ONE_YEAR_IN_SECONDS : ℚ := 31536000

/-- `COLL_GAS_COMPENSATION_DIVISOR = 200` -/
def COLL_GAS_COMPENSATION_DIVISOR : ℚ := 200

/-- `COLL_GAS_COMPENSATION_CAP = 2 * 1e18` -/
def COLL_GAS_COMPENSATION_CAP : ℚ := 2 * 10 ^ 18

/-- `ETH_GAS_COMPENSATION = 0.0375 * 1e18` -/
def ETH_GAS_COMPENSATION : ℚ := 375 * 10 ^ 14

/-- `MCR = 1.1` (a plain ratio in this model) -/
def MCR : ℚ := 11 / 10

/-- `LIQUIDATION_PENALTY_SP = 0.05` -/
def LIQUIDATION_PENALTY_SP : ℚ := 1 / 20

/-- `LIQUIDATION_PENALTY_REDISTRIBUTION = 0.10` -/
def LIQUIDATION_PENALTY_REDISTRIBUTION : ℚ := 1 / 10

/-- `self._100pct = 1e18` -/
def HUNDRED_PCT : ℚ := 10 ^ 18

/-- `MIN_BOLD_IN_SP = 1e18` as read by `batch_liquidate_troves` (line 502). -/
def MIN_BOLD_IN_SP : ℚ := 10 ^ 18

/-- `_get_redemption_rate(price)`: the source uses a fixed placeholder rate
`0.005 * DECIMAL_PRECISION`. -/
def REDEMPTION_RATE : ℚ := 5 * 10 ^ 15

/-- The `Status` enum. -/
inductive Status where
  | nonExistent
  | active
  | closedByOwner
  | closedByLiquidation
  | closedByRedemption
  | zombie
  deriving DecidableEq

/-- The `Trove` dataclass (fields the claims touch). -/
structure Trove where
  debt : ℚ := 0
  coll : ℚ := 0
  stake : ℚ := 0
  status : Status := .nonExistent
  last_debt_update_time : ℤ := 0
  last_interest_rate_adj_time : ℤ := 0
  annual_interest_rate : ℚ := 0
  interest_batch_manager : Option ℕ := none
  batch_debt_shares : ℚ := 0
  deriving DecidableEq

/-- The `Batch` dataclass. -/
structure Batch where
  debt : ℚ := 0
  coll : ℚ := 0
  last_debt_update_time : ℤ := 0
  last_interest_rate_adj_time : ℤ := 0
  annual_interest_rate : ℚ := 0
  annual_management_fee : ℚ := 0
  total_debt_shares : ℚ := 0
  deriving DecidableEq

/-- State of the `TroveManager` object.  `reward_snapshots` maps a trove id
to its `(coll, bold_debt)` redistribution snapshot (dictionary read with the
default `RewardSnapshot()`, i.e. `(0, 0)`). -/
structure State where
  troves : ℕ → Option Trove
  batches : ℕ → Option Batch
  total_stakes : ℚ
  total_stakes_snapshot : ℚ
  total_collateral_snapshot : ℚ
  L_coll : ℚ
  L_bold_debt : ℚ
  reward_snapshots : ℕ → ℚ × ℚ
  trove_ids : List ℕ
  last_zombie_trove_id : ℕ
  shutdown_time : ℤ
  sorted_troves : List ℕ
  sp_total_bold_deposits : ℚ

/-- `LatestTroveData`. -/
structure LatestTroveData where
  redist_bold_debt_gain : ℚ := 0
  redist_coll_gain : ℚ := 0
  recorded_debt : ℚ := 0
  annual_interest_rate : ℚ := 0
  weighted_recorded_debt : ℚ := 0
  accrued_interest : ℚ := 0
  accrued_batch_management_fee : ℚ := 0
  entire_debt : ℚ := 0
  entire_coll : ℚ := 0
  deriving DecidableEq

/-- `LatestBatchData`. -/
structure LatestBatchData where
  recorded_debt : ℚ := 0
  annual_interest_rate : ℚ := 0
  annual_management_fee : ℚ := 0
  weighted_recorded_debt : ℚ := 0
  weighted_recorded_batch_management_fee : ℚ := 0
  accured_interest : ℚ := 0
  accured_management_fee : ℚ := 0
  entire_debt_without_redistribution : ℚ := 0
  entire_coll_without_redistribution : ℚ := 0
  deriving DecidableEq

/-- Replace trove `tid`'s record by `f` of it (a Python in-place field
assignment on `self.troves[trove_id]`). -/
def modifyTrove (s : State) (tid : ℕ) (f : Trove → Trove) : State :=
  { s with troves := Function.update s.troves tid ((s.troves tid).map f) }

/-- Replace batch `addr`'s record by `f` of it. -/
def modifyBatch (s : State) (addr : ℕ) (f : Batch → Batch) : State :=
  { s with batches := Function.update s.batches addr ((s.batches addr).map f) }

/-- `_get_interest_period(last_update_time)` with `time.time()` as `now`. -/
def getInterestPeriod (s : State) (now last_update_time : ℤ) : ℤ :=
  let current := if s.shutdown_time ≠ 0 then min now s.shutdown_time else now
  max 0 (current - last_update_time)

/-- `_calc_interest(weighted_debt, period)`: Python `//` on the rational
quotient, i.e. its floor. -/
def calcInterest (weighted_debt : ℚ) (period : ℤ) : ℚ :=
  if period = 0 then 0
  else ((⌊weighted_debt * (period : ℚ) / (ONE_YEAR_IN_SECONDS * DECIMAL_PRECISION)⌋ : ℤ) : ℚ)

/-- `_get_batch_manager(trove_id)` -/
def getBatchManager (s : State) (tid : ℕ) : Option ℕ :=
  match s.troves tid with
  | none => none
  | some t => t.interest_batch_manager

/-- `_is_active_or_zombie(status)` -/
def isActiveOrZombie (st : Status) : Bool :=
  st = Status.active ∨ st = Status.zombie

/-- `_get_latest_batch_data(batch_address, batch)`; `none` when the batch
does not exist (the source raises). -/
def getLatestBatchData (s : State) (now : ℤ) (addr : ℕ) : Option LatestBatchData :=
  (s.batches addr).map fun b =>
    let weighted_recorded_debt := b.debt * b.annual_interest_rate
    let weighted_fee := b.debt * b.annual_management_fee
    let period := getInterestPeriod s now b.last_debt_update_time
    let accured_interest := calcInterest weighted_recorded_debt period
    let accured_management_fee := calcInterest weighted_fee period
    { recorded_debt := b.debt
      annual_interest_rate := b.annual_interest_rate
      annual_management_fee := b.annual_management_fee
      weighted_recorded_debt := weighted_recorded_debt
      weighted_recorded_batch_management_fee := weighted_fee
      accured_interest := accured_interest
      accured_management_fee := accured_management_fee
      entire_debt_without_redistribution := b.debt + accured_interest
      entire_coll_without_redistribution := b.coll }

/-- `_get_latest_trove_data(trove_id, trove)` (both the standalone and the
in-batch branch, `_get_latest_trove_data_from_batch`); `none` when the trove
(or its batch) does not exist. -/
def getLatestTroveData (s : State) (now : ℤ) (tid : ℕ) : Option LatestTroveData :=
  match s.troves tid with
  | none => none
  | some t =>
    let snap := s.reward_snapshots tid
    let redist_bold_debt_gain := t.stake * (s.L_bold_debt - snap.2) / DECIMAL_PRECISION
    let redist_coll_gain := t.stake * (s.L_coll - snap.1) / DECIMAL_PRECISION
    match t.interest_batch_manager with
    | none =>
      let recorded_debt := t.debt
      let weighted_recorded_debt := recorded_debt * t.annual_interest_rate
      let period := getInterestPeriod s now t.last_debt_update_time
      let accrued_interest := calcInterest weighted_recorded_debt period
      some
        { redist_bold_debt_gain := redist_bold_debt_gain
          redist_coll_gain := redist_coll_gain
          recorded_debt := recorded_debt
          annual_interest_rate := t.annual_interest_rate
          weighted_recorded_debt := weighted_recorded_debt
          accrued_interest := accrued_interest
          accrued_batch_management_fee := 0
          entire_debt := recorded_debt + redist_bold_debt_gain + accrued_interest
          entire_coll := t.coll + redist_coll_gain }
    | some addr =>
      match s.batches addr, getLatestBatchData s now addr with
      | some b, some lbd =>
        let total_debt_shares := b.total_debt_shares
        let d :=
          if 0 < total_debt_shares then
            let recorded_debt := lbd.recorded_debt * t.batch_debt_shares / total_debt_shares
            (recorded_debt, recorded_debt * lbd.annual_interest_rate,
              lbd.accured_interest * t.batch_debt_shares / total_debt_shares,
              lbd.accured_management_fee * t.batch_debt_shares / total_debt_shares)
          else (0, 0, 0, 0)
        some
          { redist_bold_debt_gain := redist_bold_debt_gain
            redist_coll_gain := redist_coll_gain
            recorded_debt := d.1
            annual_interest_rate := lbd.annual_interest_rate
            weighted_recorded_debt := d.2.1
            accrued_interest := d.2.2.1
            accrued_batch_management_fee := d.2.2.2
            entire_debt := d.1 + redist_bold_debt_gain + d.2.2.1 + d.2.2.2
            entire_coll := t.coll + redist_coll_gain }
      | _, _ => none

/-- `get_current_icr(trove_id, price)`.  The outer `Option` is trove
existence; the inner `Option` is the value, with `none` standing for
`float('inf')` (zero entire debt). -/
def getCurrentICR (s : State) (now : ℤ) (tid : ℕ) (price : ℚ) : Option (Option ℚ) :=
  (getLatestTroveData s now tid).map fun ltd =>
    if ltd.entire_debt = 0 then none
    else some (ltd.entire_coll * price / ltd.entire_debt)

/-- `icr < x` for an ICR that may be `float('inf')` (`inf < x` is false). -/
def icrLt (icr : Option ℚ) (x : ℚ) : Bool :=
  match icr with
  | none => false
  | some v => v < x

/-- `_update_stake_and_total_stakes(trove_id, new_coll)`: replaces the
trove's stake by `new_coll` and adjusts `total_stakes`; returns the new
stake.  (`none` when the trove does not exist.) -/
def updateStakeAndTotalStakes (s : State) (tid : ℕ) (new_coll : ℚ) :
    Option (State × ℚ) :=
  match s.troves tid with
  | none => none
  | some t =>
    let s := { s with total_stakes := s.total_stakes - t.stake + new_coll }
    some (modifyTrove s tid (fun t => { t with stake := new_coll }), new_coll)

/-- `_update_trove_reward_snapshots(trove_id)` -/
def updateTroveRewardSnapshots (s : State) (tid : ℕ) : State :=
  { s with reward_snapshots :=
      Function.update s.reward_snapshots tid (s.L_coll, s.L_bold_debt) }

/-- `_update_batch_shares(...)` (lines 1712-1763).  `debt_decrease` and
`debt_increase` are the relevant `TroveChange` fields.  The
`check_batch_shares_ratio` branch is included; its division by
`batch.total_debt_shares` uses Lean's `q / 0 = 0` on the (unreached by the
claims, since redemptions pass `check = false`) zero-share path where the
Python would raise. -/
def updateBatchShares (s : State) (tid addr : ℕ)
    (debt_increase debt_decrease new_debt batch_coll batch_debt : ℚ)
    (check_batch_shares_ratio : Bool) : Option State :=
  match s.troves tid, s.batches addr with
  | some t, some _ =>
    let s := modifyBatch s addr fun b => { b with debt := batch_debt, coll := batch_coll }
    match s.batches addr with
    | none => none
    | some b =>
      let old_shares := t.batch_debt_shares
      let old_debt := new_debt + debt_decrease - debt_increase
      let new_shares :=
        if b.total_debt_shares = 0 ∨ old_debt = 0 then new_debt
        else old_shares * new_debt / old_debt
      if check_batch_shares_ratio ∧ 0 < b.debt ∧
          new_shares / b.total_debt_shares > new_debt / b.debt * (1 + 1 / 100) then none
      else
        let s := modifyBatch s addr fun b =>
          { b with total_debt_shares := b.total_debt_shares - old_shares + new_shares }
        some (modifyTrove s tid fun t => { t with batch_debt_shares := new_shares })
  | _, _ => none

/-- `_apply_single_redemption(single_redemption, is_trove_in_batch)`:
applies the lot to the trove (or its batch), updates stake, total stakes and
reward snapshots, and returns `(state, new_debt, old_weighted, new_weighted)`.
The batch-management-fee mint and the pending-reward move are skipped in the
standalone configuration (`active_pool`/`default_pool` are `None`), exactly
as in the source's guards. -/
def applySingleRedemption (s : State) (now : ℤ) (tid : ℕ)
    (batch_address : Option ℕ) (ltd : LatestTroveData) (bold_lot coll_lot : ℚ) :
    Option (State × ℚ × ℚ × ℚ) := do
  let new_debt := ltd.entire_debt - bold_lot
  let new_coll := ltd.entire_coll - coll_lot
  let (s, old_w, new_w) ←
    match batch_address with
    | some addr => do
      let lbd ← getLatestBatchData s now addr
      let new_amount_for_weighted_debt :=
        lbd.entire_debt_without_redistribution + ltd.redist_bold_debt_gain - bold_lot
      let old_w := lbd.weighted_recorded_debt
      let new_w := new_amount_for_weighted_debt * lbd.annual_interest_rate
      let s := modifyTrove s tid fun t => { t with coll := new_coll }
      let s ← updateBatchShares s tid addr 0 bold_lot new_debt
        lbd.entire_coll_without_redistribution lbd.entire_debt_without_redistribution false
      pure (s, old_w, new_w)
    | none =>
      let old_w := ltd.weighted_recorded_debt
      let new_w := new_debt * ltd.annual_interest_rate
      let s := modifyTrove s tid fun t =>
        { t with debt := new_debt, coll := new_coll, last_debt_update_time := now }
      pure (s, old_w, new_w)
  let (s, _new_stake) ← updateStakeAndTotalStakes s tid new_coll
  let s := updateTroveRewardSnapshots s tid
  pure (s, new_debt, old_w, new_w)

/-- The per-trove outcome of `_redeem_collateral_from_trove` that the outer
loop consumes. -/
structure SingleRedemption where
  bold_lot : ℚ := 0
  coll_lot : ℚ := 0
  coll_fee : ℚ := 0
  applied_redist_bold_debt_gain : ℚ := 0
  old_weighted_recorded_debt : ℚ := 0
  new_weighted_recorded_debt : ℚ := 0
  new_debt : ℚ := 0
  deriving DecidableEq

/-- `_redeem_collateral_from_trove(single_redemption, max_bold_amount,
price, redemption_rate)` (lines 990-1038), including the zombie transition:
if the post-redemption debt falls below `MIN_DEBT / DECIMAL_PRECISION` and
the trove was not visited as the zombie pointer, its status becomes
`ZOMBIE`, it is removed from the ordered index, and (when some debt
remains) it is recorded as `last_zombie_trove_id`; an already-zombie trove
redeemed to zero debt resets the pointer. -/
def redeemCollateralFromTrove (s : State) (now : ℤ) (tid : ℕ)
    (is_zombie_trove : Bool) (max_bold_amount price redemption_rate : ℚ) :
    Option (State × SingleRedemption) := do
  let ltd ← getLatestTroveData s now tid
  let bold_lot := min max_bold_amount ltd.entire_debt
  let corresponding_coll := bold_lot * DECIMAL_PRECISION / price
  let coll_fee := corresponding_coll * redemption_rate / DECIMAL_PRECISION
  let coll_lot := corresponding_coll - coll_fee
  let batch_address := getBatchManager s tid
  let (s, new_debt, old_w, new_w) ←
    applySingleRedemption s now tid batch_address ltd bold_lot coll_lot
  let s :=
    if new_debt < MIN_DEBT / DECIMAL_PRECISION then
      if ¬ is_zombie_trove then
        let s := modifyTrove s tid fun t => { t with status := Status.zombie }
        let s := { s with sorted_troves := s.sorted_troves.erase tid }
        if 0 < new_debt then { s with last_zombie_trove_id := tid } else s
      else if new_debt = 0 then { s with last_zombie_trove_id := 0 }
      else s
    else s
  pure (s,
    { bold_lot := bold_lot
      coll_lot := coll_lot
      coll_fee := coll_fee
      applied_redist_bold_debt_gain := ltd.redist_bold_debt_gain
      old_weighted_recorded_debt := old_w
      new_weighted_recorded_debt := new_w
      new_debt := new_debt })

/-- `_update_batch_interest_prior_to_redemption(batch_address)`
(lines 1135-1167; the Active-Pool call is skipped in the standalone
configuration). -/
def updateBatchInterestPriorToRedemption (s : State) (now : ℤ) (addr : ℕ) :
    Option State := do
  let lbd ← getLatestBatchData s now addr
  pure (modifyBatch s addr fun b =>
    { b with debt := lbd.entire_debt_without_redistribution, last_debt_update_time := now })

/-- `_get_last_trove_id()`: last entry of `trove_ids`, `0` if empty (the
stand-in for `sortedTroves.getLast()`). -/
def getLastTroveId (s : State) : ℕ :=
  (s.trove_ids.getLast?).getD 0

/-- `_get_prev_trove_id(trove_id)`: the entry before `trove_id` in
`trove_ids`, `0` at the front or when absent. -/
def getPrevTroveId (s : State) (tid : ℕ) : ℕ :=
  match s.trove_ids.indexOf? tid with
  | none => 0
  | some i => if 0 < i then s.trove_ids.getD (i - 1) 0 else 0

/-- Running totals of `redeem_collateral` (`total_trove_change` plus
`total_coll_fee`). -/
structure RedeemTotals where
  coll_decrease : ℚ := 0
  debt_decrease : ℚ := 0
  applied_redist_bold_debt_gain : ℚ := 0
  old_weighted_recorded_debt : ℚ := 0
  new_weighted_recorded_debt : ℚ := 0
  coll_fee : ℚ := 0
  deriving DecidableEq

/-- The trove cursor `redeem_collateral` starts from (lines 917-923): the
pending zombie trove if the pointer is set, else the last trove of the
ordered walk. -/
def redeemStart (s : State) : ℕ × Bool :=
  if s.last_zombie_trove_id ≠ 0 then (s.last_zombie_trove_id, true)
  else (getLastTroveId s, false)

/-- The `while` loop of `redeem_collateral` (lines 933-975).  `fuel` only
serves Lean's termination: the cursor strictly descends the `trove_ids`
list, so any `fuel` larger than the list length makes the result `none`-free
on the same inputs the Python loop terminates on. -/
def redeemLoop (s : State) (now : ℤ) (price rate : ℚ) (remaining : ℚ)
    (tid : ℕ) (is_zombie : Bool) (iterations max_iterations : ℤ)
    (unlimited : Bool) (last_batch_updated : Option ℕ) (acc : RedeemTotals) :
    (fuel : ℕ) → Option (State × RedeemTotals)
  | 0 => none
  | fuel + 1 =>
    if tid ≠ 0 ∧ 0 < remaining ∧ (unlimited ∨ iterations < max_iterations) then
      let iterations := iterations + 1
      let next_trove_to_check :=
        if is_zombie then getLastTroveId s else getPrevTroveId s tid
      match getCurrentICR s now tid price with
      | none => none
      | some icr =>
        if icrLt icr HUNDRED_PCT then
          redeemLoop s now price rate remaining next_trove_to_check false
            iterations max_iterations unlimited last_batch_updated acc fuel
        else
          let batch_address := getBatchManager s tid
          let step : Option (State × Option ℕ) :=
            match batch_address with
            | some addr =>
              if last_batch_updated ≠ some addr then
                (updateBatchInterestPriorToRedemption s now addr).map
                  fun s' => (s', some addr)
              else some (s, last_batch_updated)
            | none => some (s, last_batch_updated)
          match step with
          | none => none
          | some (s, last_batch_updated) =>
            match redeemCollateralFromTrove s now tid is_zombie remaining price rate with
            | none => none
            | some (s, sr) =>
              let acc :=
                { coll_decrease := acc.coll_decrease + sr.coll_lot
                  debt_decrease := acc.debt_decrease + sr.bold_lot
                  applied_redist_bold_debt_gain :=
                    acc.applied_redist_bold_debt_gain + sr.applied_redist_bold_debt_gain
                  old_weighted_recorded_debt :=
                    acc.old_weighted_recorded_debt + sr.old_weighted_recorded_debt
                  new_weighted_recorded_debt :=
                    acc.new_weighted_recorded_debt + sr.new_weighted_recorded_debt
                  coll_fee := acc.coll_fee + sr.coll_fee }
              let remaining := remaining - sr.bold_lot
              redeemLoop s now price rate remaining next_trove_to_check false
                iterations max_iterations unlimited last_batch_updated acc fuel
    else some (s, acc)

/-- `redeem_collateral(redeemer, bold_amount, max_iterations)` (lines
857-988) in the standalone configuration (no token ledger, so the balance
check and the final transfers are skipped as in the source's guards); the
result is `(state, redeemed_amount, total_coll_fee, total_coll_drawn)`;
`none` models a raised exception. -/
def redeem_collateral (s : State) (now : ℤ) (price bold_amount : ℚ)
    (max_iterations : ℤ) : Option (State × ℚ × ℚ × ℚ) := do
  if s.shutdown_time ≠ 0 then none
  else if bold_amount ≤ 0 then none
  else if price ≤ 0 then none
  else
    let redemption_rate := REDEMPTION_RATE
    let start := redeemStart s
    let unlimited := max_iterations ≤ 0
    let r ← redeemLoop s now price redemption_rate bold_amount start.1 start.2
      0 max_iterations unlimited none {} (s.trove_ids.length + 2)
    pure (r.1, r.2.debt_decrease, r.2.coll_fee, r.2.coll_decrease)

/-- The post-redemption debt `new_debt = entire_debt - bold_lot` that
`_redeem_collateral_from_trove` computes for a trove (with
`bold_lot = min(max_bold_amount, entire_debt)`), read off the inputs. -/
def redeemNewDebt (s : State) (now : ℤ) (tid : ℕ) (max_bold_amount : ℚ) : ℚ :=
  match getLatestTroveData s now tid with
  | none => 0
  | some ltd => ltd.entire_debt - min max_bold_amount ltd.entire_debt

/-- `_get_coll_gas_compensation(entire_coll)`:
`min(entire_coll / 200, COLL_GAS_COMPENSATION_CAP)`. -/
def getCollGasCompensation (entire_coll : ℚ) : ℚ :=
  min (entire_coll / COLL_GAS_COMPENSATION_DIVISOR) COLL_GAS_COMPENSATION_CAP

/-- `_get_coll_penalty_and_surplus(coll_to_liquidate, debt_to_liquidate,
penalty_ratio, price)`: the seizable cap is
`debt_to_liquidate * (DECIMAL_PRECISION + penalty_ratio) / price` — note the
source adds the plain-ratio penalty constant (`0.05` resp. `0.10`) to the
`1e18`-scaled `DECIMAL_PRECISION`.  Returns `(seized_coll, coll_surplus)`. -/
def getCollPenaltyAndSurplus (coll_to_liquidate debt_to_liquidate penalty_ratio price : ℚ) :
    ℚ × ℚ :=
  let max_seized_coll := debt_to_liquidate * (DECIMAL_PRECISION + penalty_ratio) / price
  if max_seized_coll < coll_to_liquidate then
    (max_seized_coll, coll_to_liquidate - max_seized_coll)
  else (coll_to_liquidate, 0)

/-- The tuple returned by `_get_offset_and_redistribution_vals`. -/
structure OffsetVals where
  debt_to_offset : ℚ
  coll_to_send_to_sp : ℚ
  debt_to_redistribute : ℚ
  coll_to_redistribute : ℚ
  coll_surplus : ℚ
  deriving DecidableEq

/-- `_get_offset_and_redistribution_vals(entire_trove_debt,
coll_to_liquidate, bold_in_sp_for_offsets, price)` (lines 667-714).  (On a
zero `entire_trove_debt` with a positive SP budget the source would raise
`ZeroDivisionError`; the embedding's `q / 0 = 0` never arises on the
liquidation path since a zero-debt trove has infinite ICR.) -/
def getOffsetAndRedistributionVals
    (entire_trove_debt coll_to_liquidate bold_in_sp_for_offsets price : ℚ) : OffsetVals :=
  let sp :=
    if 0 < bold_in_sp_for_offsets then
      let debt_to_offset := min entire_trove_debt bold_in_sp_for_offsets
      let coll_sp_portion := coll_to_liquidate * debt_to_offset / entire_trove_debt
      let ps := getCollPenaltyAndSurplus coll_sp_portion debt_to_offset
        LIQUIDATION_PENALTY_SP price
      (debt_to_offset, coll_sp_portion, ps.1, ps.2)
    else (0, 0, 0, 0)
  let debt_to_offset := sp.1
  let coll_sp_portion := sp.2.1
  let coll_to_send_to_sp := sp.2.2.1
  let coll_surplus_sp := sp.2.2.2
  let debt_to_redistribute := entire_trove_debt - debt_to_offset
  let rd :=
    if 0 < debt_to_redistribute then
      let coll_redistribution_portion := coll_to_liquidate - coll_sp_portion
      if 0 < coll_redistribution_portion then
        getCollPenaltyAndSurplus (coll_redistribution_portion + coll_surplus_sp)
          debt_to_redistribute LIQUIDATION_PENALTY_REDISTRIBUTION price
      else (0, 0)
    else (0, 0)
  { debt_to_offset := debt_to_offset
    coll_to_send_to_sp := coll_to_send_to_sp
    debt_to_redistribute := debt_to_redistribute
    coll_to_redistribute := rd.1
    coll_surplus := coll_surplus_sp + rd.2 }

/-- `_close_trove(trove_id, trove_change, batch_address, batch_coll,
batch_debt, status)` (lines 1660-1710). -/
def closeTrove (s : State) (tid : ℕ) (batch_address : Option ℕ)
    (batch_coll batch_debt : ℚ) (status : Status) : Option State := do
  match s.troves tid with
  | none => none
  | some t =>
    let s := { s with total_stakes := s.total_stakes - t.stake }
    let s ←
      match batch_address with
      | some addr =>
        match s.batches addr with
        | none => none
        | some _ => some (modifyBatch s addr fun b =>
            { b with
              debt := batch_debt
              coll := batch_coll
              total_debt_shares := b.total_debt_shares - t.batch_debt_shares })
      | none => some s
    let s := { s with sorted_troves := s.sorted_troves.erase tid }
    let s := modifyTrove s tid fun t =>
      { t with status := status, debt := 0, coll := 0, stake := 0, annual_interest_rate := 0 }
    pure { s with trove_ids := s.trove_ids.erase tid }

/-- `LiquidationValues` (per-trove and running totals). -/
structure LiquidationValues where
  coll_gas_compensation : ℚ := 0
  debt_to_offset : ℚ := 0
  coll_to_send_to_sp : ℚ := 0
  debt_to_redistribute : ℚ := 0
  coll_to_redistribute : ℚ := 0
  coll_surplus : ℚ := 0
  eth_gas_compensation : ℚ := 0
  old_weighted_recorded_debt : ℚ := 0
  new_weighted_recorded_debt : ℚ := 0
  deriving DecidableEq

/-- `_liquidate(trove_id, bold_in_sp_for_offsets, price, trove,
single_liquidation)` (lines 558-653) in the standalone configuration: the
pending-reward move, the batch-fee mint and the surplus accounting are
guarded by `if self.<pool>:` in the source and skipped.  Returns the updated
state, the trove's latest data, and the single-liquidation values. -/
def liquidateOne (s : State) (now : ℤ) (tid : ℕ) (bold_in_sp_for_offsets price : ℚ) :
    Option (State × LatestTroveData × LiquidationValues) := do
  let ltd ← getLatestTroveData s now tid
  let batch_address := getBatchManager s tid
  let lbd? ←
    match batch_address with
    | some addr =>
      match getLatestBatchData s now addr with
      | none => none
      | some lbd => some (some lbd)
    | none => some (none : Option LatestBatchData)
  let coll_gas_compensation := getCollGasCompensation ltd.entire_coll
  let coll_to_liquidate := ltd.entire_coll - coll_gas_compensation
  let ov := getOffsetAndRedistributionVals ltd.entire_debt coll_to_liquidate
    bold_in_sp_for_offsets price
  let s ← closeTrove s tid batch_address
    ((lbd?.map (·.entire_coll_without_redistribution)).getD 0)
    ((lbd?.map (·.entire_debt_without_redistribution)).getD 0)
    Status.closedByLiquidation
  let weights :=
    match lbd? with
    | some lbd =>
      (lbd.weighted_recorded_debt
          + (ltd.entire_debt - ltd.redist_bold_debt_gain) * lbd.annual_interest_rate,
        lbd.entire_debt_without_redistribution * lbd.annual_interest_rate)
    | none => (ltd.weighted_recorded_debt, 0)
  pure (s, ltd,
    { coll_gas_compensation := coll_gas_compensation
      debt_to_offset := ov.debt_to_offset
      coll_to_send_to_sp := ov.coll_to_send_to_sp
      debt_to_redistribute := ov.debt_to_redistribute
      coll_to_redistribute := ov.coll_to_redistribute
      coll_surplus := ov.coll_surplus
      old_weighted_recorded_debt := weights.1
      new_weighted_recorded_debt := weights.2 })

/-- `_add_liquidation_values_to_totals` (lines 742-769), restricted to the
`LiquidationValues` totals and the `debt_decrease` accumulator the batch
loop's final check reads. -/
def addLiquidationValuesToTotals (totals : LiquidationValues)
    (single : LiquidationValues) : LiquidationValues :=
  { coll_gas_compensation := totals.coll_gas_compensation + single.coll_gas_compensation
    eth_gas_compensation := totals.eth_gas_compensation + ETH_GAS_COMPENSATION
    debt_to_offset := totals.debt_to_offset + single.debt_to_offset
    coll_to_send_to_sp := totals.coll_to_send_to_sp + single.coll_to_send_to_sp
    debt_to_redistribute := totals.debt_to_redistribute + single.debt_to_redistribute
    coll_to_redistribute := totals.coll_to_redistribute + single.coll_to_redistribute
    coll_surplus := totals.coll_surplus + single.coll_surplus
    old_weighted_recorded_debt :=
      totals.old_weighted_recorded_debt + single.old_weighted_recorded_debt
    new_weighted_recorded_debt :=
      totals.new_weighted_recorded_debt + single.new_weighted_recorded_debt }

/-- The per-trove loop of `batch_liquidate_troves` (lines 510-529): skips
missing or non-active/zombie troves, liquidates those with `ICR < MCR`,
decrementing the remaining SP budget by each liquidation's offset, and
accumulating totals plus the `debt_decrease` sum of the `TroveChange`. -/
def batchLiquidateLoop (s : State) (now : ℤ) (price : ℚ) :
    (trove_array : List ℕ) → (bold_in_sp_for_offsets : ℚ) →
    (totals : LiquidationValues) → (debt_decrease : ℚ) →
    Option (State × ℚ × LiquidationValues × ℚ)
  | [], bold_in_sp_for_offsets, totals, debt_decrease =>
    some (s, bold_in_sp_for_offsets, totals, debt_decrease)
  | tid :: rest, bold_in_sp_for_offsets, totals, debt_decrease =>
    match s.troves tid with
    | none => batchLiquidateLoop s now price rest bold_in_sp_for_offsets totals debt_decrease
    | some t =>
      if ¬ isActiveOrZombie t.status then
        batchLiquidateLoop s now price rest bold_in_sp_for_offsets totals debt_decrease
      else
        match getCurrentICR s now tid price with
        | none => none
        | some icr =>
          if icrLt icr MCR then
            match liquidateOne s now tid bold_in_sp_for_offsets price with
            | none => none
            | some (s', ltd, single) =>
              batchLiquidateLoop s' now price rest
                (bold_in_sp_for_offsets - single.debt_to_offset)
                (addLiquidationValuesToTotals totals single)
                (debt_decrease + ltd.entire_debt)
          else
            batchLiquidateLoop s now price rest bold_in_sp_for_offsets totals debt_decrease

/-- `_update_system_snapshots_exclude_coll_remainder(coll_remainder)`; in
the standalone configuration both pool balances read as `0`. -/
def updateSystemSnapshotsExcludeCollRemainder (s : State) (coll_remainder : ℚ) : State :=
  { s with total_stakes_snapshot := s.total_stakes
           total_collateral_snapshot := 0 - coll_remainder + 0 }

/-- `batch_liquidate_troves(trove_array)` (lines 463-556).  The SP budget
for offsets is `max(0, total_bold_deposits - MIN_BOLD_IN_SP)`.  After the
loop: nothing liquidated raises; the Stability-Pool offset is applied to the
pool-total scalar; a positive `debt_to_redistribute` reaches
`_redistribute_debt_and_coll`, which raises in the standalone configuration
(no pools), modelled as `none`. -/
def batch_liquidate_troves (s : State) (now : ℤ) (price : ℚ) (trove_array : List ℕ) :
    Option (State × LiquidationValues) := do
  if trove_array = [] then none
  else if price ≤ 0 then none
  else
    let total_bold_deposits := s.sp_total_bold_deposits
    let bold_in_sp_for_offsets := max 0 (total_bold_deposits - MIN_BOLD_IN_SP)
    let r ← batchLiquidateLoop s now price trove_array bold_in_sp_for_offsets {} 0
    let s := r.1
    let totals := r.2.2.1
    let debt_decrease := r.2.2.2
    if debt_decrease = 0 then none
    else
      let s :=
        if 0 < totals.debt_to_offset then
          { s with sp_total_bold_deposits := s.sp_total_bold_deposits - totals.debt_to_offset }
        else s
      if 0 < totals.debt_to_redistribute then none
      else pure (updateSystemSnapshotsExcludeCollRemainder s totals.coll_gas_compensation,
        totals)

end TM

/-! ## Concrete instances used by the witnesses and counterexamples -/

/-- A Stability Pool holding a single deposit of 5 BOLD (5e18) by depositor
`0`, with the depositor's snapshot at the initial `(P, S, B, scale)`. -/
def spFiveDeposit : SP.State :=
  { SP.initState with
    total_bold_deposits := 5 * 10 ^ 18
    deposits := fun d => if d = 0 then 5 * 10 ^ 18 else 0 }

/-- A Stability Pool whose scale has advanced to `8` (with `P` back at
`10 ^ 27`, one rescale-threshold worth below the initial product), holding a
1-BOLD deposit by depositor `0` whose snapshot is still at scale `0`. -/
def spScaleEight : SP.State :=
  { SP.initState with
    total_bold_deposits := 10 ^ 18
    P := 10 ^ 27
    current_scale := 8
    deposits := fun d => if d = 0 then 10 ^ 18 else 0 }

/-- The `ActivePool` interest fields at the failing input of claim C4:
weighted debt sum `1e18` (1 BOLD at 100% annual rate), one elapsed second,
not shut down. -/
def apOneSecond : AP.State :=
  { agg_weighted_debt_sum := 10 ^ 18
    last_agg_update_time := 0
    shutdown_time := 0 }

/-- Redistribution state at the failing input of claim C6: three units of
total stakes, no carried errors, plenty of active collateral and debt. -/
def redistThreeStakes : Redist.State :=
  { L_coll := 0
    L_bold_debt := 0
    last_coll_error_redistribution := 0
    last_bold_debt_error_redistribution := 0
    total_stakes := 3
    active_pool_coll := 100
    default_pool_coll := 0
    default_pool_debt := 0
    active_bold_debt := 50
    total_collateral_snapshot := 0 }

/-- A TroveManager with a single standalone active trove `1` holding
`10000` debt and `10` collateral (the spec's scenario trove), not shut
down, no batches, no pending zombie. -/
def tmOneTrove : TM.State :=
  { troves := fun tid =>
      if tid = 1 then
        some { debt := 10000, coll := 10, stake := 10, status := TM.Status.active }
      else none
    batches := fun _ => none
    total_stakes := 10
    total_stakes_snapshot := 0
    total_collateral_snapshot := 0
    L_coll := 0
    L_bold_debt := 0
    reward_snapshots := fun _ => (0, 0)
    trove_ids := [1]
    last_zombie_trove_id := 0
    shutdown_time := 0
    sorted_troves := [1]
    sp_total_bold_deposits := 0 }

/-- `tmOneTrove` with a Stability Pool holding `1e18 + 20000` BOLD
deposits, so that the batch-liquidation budget is `20000`. -/
def tmOneTroveWithSP : TM.State :=
  { tmOneTrove with sp_total_bold_deposits := 10 ^ 18 + 20000 }

/-- A CollSurplusPool holding 10 units in total, 7 of them claimable by
account `0`. -/
def cspSeven : CSP.State :=
  { coll_balance := 10
    balances := fun a => if a = 0 then 7 else 0 }

/-! ## Helper lemmas -/

theorem fdiv_nonpos_of_nonpos_of_nonneg {a b : ℤ} (ha : a ≤ 0) (hb : 0 ≤ b) :
    a.fdiv b ≤ 0 := by
  rcases eq_or_lt_of_le hb with h | h
  · rw [← h]; simp
  · rw [Int.fdiv_eq_ediv _ hb]
    by_contra hpos
    push_neg at hpos
    have h1 : b * (a / b) + a % b = a := Int.ediv_add_emod a b
    have h2 : 0 ≤ a % b := Int.emod_nonneg a (by omega)
    nlinarith

theorem pos_of_fdiv_pos {a b : ℤ} (hb : 0 ≤ b) (h : 0 < a.fdiv b) : 0 < a := by
  by_contra h'
  push_neg at h'
  exact absurd h (not_lt.mpr (fdiv_nonpos_of_nonpos_of_nonneg h' hb))

theorem offset_scale_loop_result_pos (total : ℤ) (ht : 0 < total) :
    ∀ (num scale : ℤ), 0 < num → 0 < (SP.offset_scale_loop total num scale).1 := by
  intro num scale
  induction num, scale using SP.offset_scale_loop.induct total with
  | case1 num scale h ih =>
    intro _
    rw [SP.offset_scale_loop, dif_pos h]
    have hSF : (0:ℤ) < SP.SCALE_FACTOR := by norm_num [SP.SCALE_FACTOR]
    exact ih (by positivity)
  | case2 num scale h =>
    intro hn
    rw [SP.offset_scale_loop, dif_neg h]
    simp only [not_and, not_lt] at h
    have h2 := h ht hn
    have hth : (0:ℤ) < SP.P_THRESHOLD := by decide
    simp only []
    omega

/-! ## Claim C2 -/

/-- C2: the Stability Pool's product `P` is strictly positive initially; for
every state with positive total deposits and positive `P`, an `offset` call
with `debt_to_offset ≥ total_bold_deposits` (which would drive `P` to zero
or below) raises an error, and every `offset` call that returns successfully
leaves `P > 0`. -/
theorem claim_C2_offset_keeps_P_positive (s : SP.State) (debt coll : ℤ)
    (htot : 0 < s.total_bold_deposits) (hP : 0 < s.P) :
    0 < SP.initState.P
    ∧ (s.total_bold_deposits ≤ debt → SP.Result.isErr (SP.offset s debt coll) = true)
    ∧ (∀ s' amt, SP.offset s debt coll = SP.Result.ok s' amt → 0 < s'.P) := by
  refine ⟨by decide, ?_, ?_⟩
  · intro hle
    unfold SP.offset
    rw [if_neg (by omega)]
    have hnum : s.P * (s.total_bold_deposits - debt) ≤ 0 := by nlinarith
    simp only []
    rw [if_pos (fdiv_nonpos_of_nonpos_of_nonneg hnum htot.le)]
    rfl
  · intro s' amt h
    unfold SP.offset at h
    rw [if_neg (by omega)] at h
    simp only [] at h
    split at h
    · exact absurd h (by simp)
    · rename_i hpos
      push_neg at hpos
      have hnumpos : 0 < s.P * (s.total_bold_deposits - debt) :=
        pos_of_fdiv_pos htot.le hpos
      have := offset_scale_loop_result_pos s.total_bold_deposits htot
        (s.P * (s.total_bold_deposits - debt)) s.current_scale hnumpos
      cases h
      simpa using this

/-- Witness for C2 at a concrete pool: 5 BOLD deposited, `P` at its initial
value; offsetting the full 5 BOLD errors out. -/
theorem claim_C2_offset_keeps_P_positive_witness :
    0 < spFiveDeposit.total_bold_deposits ∧ 0 < spFiveDeposit.P
    ∧ SP.Result.isErr (SP.offset spFiveDeposit (5 * 10 ^ 18) 0) = true :=
  ⟨by decide, by decide,
    (claim_C2_offset_keeps_P_positive spFiveDeposit (5 * 10 ^ 18) 0 (by decide)
      (by decide)).2.1 (by decide)⟩

/-! ## Claim C9 -/

/-- C9: for every account with a non-negative recorded balance (the only
reachable kind), `claim_coll` fails exactly when the balance is zero (or
absent, which reads as zero); otherwise it returns exactly the balance,
zeroes it, and deducts it from the pool total.  `account_surplus` with a
positive amount credits both the account and the pool total by that
amount. -/
theorem claim_C9_surplus_accounting (s : CSP.State) (a : ℕ)
    (hnn : 0 ≤ s.balances a) :
    (CSP.claim_coll s a = none ↔ s.balances a = 0)
    ∧ (∀ s' amt, CSP.claim_coll s a = some (s', amt) →
        amt = s.balances a ∧ s'.balances a = 0
        ∧ s'.coll_balance = s.coll_balance - amt)
    ∧ (∀ amt, 0 < amt → ∃ s', CSP.account_surplus s a amt = some s'
        ∧ s'.balances a = s.balances a + amt
        ∧ s'.coll_balance = s.coll_balance + amt) := by
  refine ⟨?_, ?_, ?_⟩
  · unfold CSP.claim_coll
    dsimp only
    by_cases h : s.balances a ≤ 0
    · rw [if_pos h]
      simp only [true_iff]
      omega
    · rw [if_neg h]
      simp only [reduceCtorEq, false_iff]
      omega
  · intro s' amt h
    unfold CSP.claim_coll at h
    dsimp only at h
    split at h
    · exact absurd h (by simp)
    · cases h
      refine ⟨rfl, ?_, rfl⟩
      simp
  · intro amt hamt
    unfold CSP.account_surplus
    rw [if_neg (by omega)]
    exact ⟨_, rfl, by simp, rfl⟩

/-- Witness for C9 at a concrete pool: account `0` holds 7 claimable units
out of a 10-unit pool. -/
theorem claim_C9_surplus_accounting_witness :
    0 ≤ cspSeven.balances 0
    ∧ (CSP.claim_coll cspSeven 0 = none ↔ cspSeven.balances 0 = 0) :=
  ⟨by decide, (claim_C9_surplus_accounting cspSeven 0 (by decide)).1⟩

/-! ## Claim C4 -/

/-- C4 (code bug): at weighted debt sum `1e18` and one elapsed second,
`calc_pending_agg_interest` returns `1 + 1/31536000`: the exact (true
division) quotient plus one, which exceeds the ceiling of the quotient —
the claimed value, `⌈1e18 / (31536000 * 1e18)⌉ = 1`.  (The function uses
Python's `/` where the "ceiling effect" pattern requires `//`; the sibling
`calc_pending_agg_batch_management_fee` uses `//`.)  After shutdown it does
return `0`. -/
theorem claim_C4_interest_not_ceiling :
    AP.calc_pending_agg_interest apOneSecond 1 = 1 + 1 / 31536000
    ∧ (⌈(((10 : ℤ) ^ 18 : ℤ) : ℚ) / (((31536000 * 10 ^ 18 : ℤ) : ℤ) : ℚ)⌉ : ℤ) = 1
    ∧ AP.calc_pending_agg_interest apOneSecond 1 ≠ ((1 : ℤ) : ℚ)
    ∧ AP.calc_pending_agg_interest { apOneSecond with shutdown_time := 99 } 1 = 0 := by
  refine ⟨?_, ?_, ?_, ?_⟩
  · norm_num [AP.calc_pending_agg_interest, apOneSecond, AP.ONE_YEAR, AP.DECIMAL_PRECISION]
  · rw [Int.ceil_eq_iff]
    constructor <;> norm_num
  · norm_num [AP.calc_pending_agg_interest, apOneSecond, AP.ONE_YEAR, AP.DECIMAL_PRECISION]
  · norm_num [AP.calc_pending_agg_interest]

/-! ## Claim C6 -/

/-- C6 (code bug): redistributing `coll = debt = 1` over `total_stakes = 3`
with no carried error increments `L_coll` by the exact true-division
quotient `1e18 / 3` — not by the integer quotient `⌊1e18 / 3⌋` the claim
(and the carried-remainder scheme) requires — while nevertheless carrying
the remainder `1` forward as the next error term, double-counting it. -/
theorem claim_C6_redistribution_not_floor :
    (Redist.redistribute_debt_and_coll redistThreeStakes 1 1).map
      (fun s' => (s'.L_coll, s'.last_coll_error_redistribution))
      = some (10 ^ 18 / 3, 1)
    ∧ ((10 : ℚ) ^ 18 / 3) ≠
      ((⌊((1 : ℚ) * Redist.DECIMAL_PRECISION
          + redistThreeStakes.last_coll_error_redistribution)
          / redistThreeStakes.total_stakes⌋ : ℤ) : ℚ) := by
  have hfloor : (⌊((1:ℚ) * Redist.DECIMAL_PRECISION + 0) / 3⌋ : ℤ) = 333333333333333333 := by
    rw [Redist.DECIMAL_PRECISION, Int.floor_eq_iff]
    constructor <;> norm_num
  have hfloor2 : (⌊Redist.DECIMAL_PRECISION / 3⌋ : ℤ) = 333333333333333333 := by
    rw [Redist.DECIMAL_PRECISION, Int.floor_eq_iff]
    constructor <;> norm_num
  constructor
  · unfold Redist.redistribute_debt_and_coll
    norm_num [redistThreeStakes, Redist.pymod, hfloor, Redist.DECIMAL_PRECISION]
  · norm_num [redistThreeStakes, hfloor2]

/-! ## Claim C5 -/

/-- C5 (code bug): liquidating a trove with `10000` entire debt and `200`
liquidatable collateral at price `100` against an ample Stability Pool
sends all `200` collateral to the pool and produces no surplus, although
the claimed cap `debtToOffset * (1 + 5%) / price = 105` is well below `200`
— the source's `debt * (DECIMAL_PRECISION + penalty) / price` adds the
plain-ratio penalty `0.05` to the `1e18`-scaled unit, so the cap never
binds. -/
theorem claim_C5_sp_cap_not_enforced :
    (TM.getOffsetAndRedistributionVals 10000 200 (10 ^ 9) 100).debt_to_offset = 10000
    ∧ (TM.getOffsetAndRedistributionVals 10000 200 (10 ^ 9) 100).coll_to_send_to_sp = 200
    ∧ (TM.getOffsetAndRedistributionVals 10000 200 (10 ^ 9) 100).coll_surplus = 0
    ∧ (10000 : ℚ) * (1 + TM.LIQUIDATION_PENALTY_SP) / 100 < 200 := by
  refine ⟨?_, ?_, ?_, ?_⟩ <;>
    norm_num [TM.getOffsetAndRedistributionVals, TM.getCollPenaltyAndSurplus,
      TM.LIQUIDATION_PENALTY_SP, TM.DECIMAL_PRECISION]

/-! ## Claim C7 -/

theorem fdiv_natCast (m n : ℕ) : (↑m : ℤ).fdiv ↑n = ↑(m / n) := by
  rw [Int.fdiv_eq_ediv _ (by positivity)]
  exact (Int.ofNat_ediv m n).symm

theorem fdiv_fdiv_eq_fdiv_mul {a b c : ℤ} (ha : 0 ≤ a) (hb : 0 ≤ b) (hc : 0 ≤ c) :
    (a.fdiv b).fdiv c = a.fdiv (b * c) := by
  lift a to ℕ using ha
  lift b to ℕ using hb
  lift c to ℕ using hc
  rw [fdiv_natCast, fdiv_natCast, ← Nat.cast_mul, fdiv_natCast, Nat.div_div_eq_div_mul]

/-- C7 (amended): for a depositor with a positive deposit (in a state with
non-negative `P` and a positive, not-in-the-future snapshot), the
compounded deposit is `0` when more than `MAX_SCALE_FACTOR_EXPONENT = 8`
scale steps have elapsed, and otherwise equals the floor of
`deposit * P / (snapshot.P * SCALE_FACTOR ^ scale_diff)` — which may itself
be zero; the original claim's "nonzero" at `scale_diff = 8` is refuted by
`claim_C7_counterexample`. -/
theorem claim_C7_compounded_deposit (s : SP.State) (d : ℕ)
    (hd : 0 < s.deposits d) (hP : 0 ≤ s.P)
    (hsnap : 0 < (s.deposit_snapshots d).P)
    (hscale : (s.deposit_snapshots d).scale ≤ s.current_scale) :
    (SP.MAX_SCALE_FACTOR_EXPONENT < s.current_scale - (s.deposit_snapshots d).scale →
      SP.get_compounded_bold_deposit s d = 0)
    ∧ (s.current_scale - (s.deposit_snapshots d).scale ≤ SP.MAX_SCALE_FACTOR_EXPONENT →
      SP.get_compounded_bold_deposit s d
        = (s.deposits d * s.P).fdiv
            ((s.deposit_snapshots d).P
              * SP.SCALE_FACTOR ^ (s.current_scale - (s.deposit_snapshots d).scale).toNat)) := by
  unfold SP.get_compounded_bold_deposit
  dsimp only
  rw [if_neg (by omega)]
  constructor
  · intro h
    rw [if_pos h]
  · intro h
    rw [if_neg (not_lt.mpr h)]
    have hSF : (0 : ℤ) ≤ SP.SCALE_FACTOR := by decide
    by_cases hpos : 0 < s.current_scale - (s.deposit_snapshots d).scale
    · rw [if_pos hpos]
      exact fdiv_fdiv_eq_fdiv_mul (by positivity) hsnap.le (pow_nonneg hSF _)
    · rw [if_neg hpos]
      have h0 : s.current_scale - (s.deposit_snapshots d).scale = 0 := by omega
      rw [h0]
      simp

/-- Counterexample for C7 as stated: at exactly `scale_diff = 8` (snapshot
at scale `0` and `P = 1e36`; pool at scale `8` with `P = 1e27`), a 1-BOLD
deposit compounds to exactly `0`, not to a nonzero value. -/
theorem claim_C7_counterexample :
    spScaleEight.current_scale - (spScaleEight.deposit_snapshots 0).scale
      = SP.MAX_SCALE_FACTOR_EXPONENT
    ∧ 0 < spScaleEight.deposits 0
    ∧ SP.get_compounded_bold_deposit spScaleEight 0 = 0 := by
  refine ⟨by decide, by decide, by decide⟩

/-- Witness for the amended C7 at the same concrete pool. -/
theorem claim_C7_compounded_deposit_witness :
    0 < spScaleEight.deposits 0
    ∧ (spScaleEight.current_scale - (spScaleEight.deposit_snapshots 0).scale
        ≤ SP.MAX_SCALE_FACTOR_EXPONENT →
      SP.get_compounded_bold_deposit spScaleEight 0
        = (spScaleEight.deposits 0 * spScaleEight.P).fdiv
            ((spScaleEight.deposit_snapshots 0).P
              * SP.SCALE_FACTOR
                ^ (spScaleEight.current_scale - (spScaleEight.deposit_snapshots 0).scale).toNat)) :=
  ⟨by decide,
    (claim_C7_compounded_deposit spScaleEight 0 (by decide) (by decide) (by decide)
      (by decide)).2⟩

/-! ## Claim C1 -/

theorem update_deposit_and_snapshots_total (s : SP.State) (d : ℕ) (nd nsc : ℤ) :
    (SP.update_deposit_and_snapshots s d nd nsc).total_bold_deposits
      = s.total_bold_deposits := by
  unfold SP.update_deposit_and_snapshots
  dsimp only
  split <;> rfl

theorem decrease_yield_gains_owed_total (s : SP.State) (a : ℤ) :
    (SP.decrease_yield_gains_owed s a).total_bold_deposits = s.total_bold_deposits := by
  unfold SP.decrease_yield_gains_owed
  split <;> rfl

theorem update_total_bold_deposits_snd (s : SP.State) (inc dec : ℤ) :
    (SP.update_total_bold_deposits s inc dec).2
      = if inc = 0 ∧ dec = 0 then s.total_bold_deposits
        else s.total_bold_deposits + inc - dec := by
  unfold SP.update_total_bold_deposits
  split <;> rfl

/-- C1 (amended): a withdrawal that would leave the pool's total deposits
below `MIN_BOLD_IN_SP` does raise an error — but only after the mutations
(deposit/snapshot rewrite, yield-gains decrease, total-deposit decrease,
collateral send) have been applied, so the observable state is not the
pre-call state (see `claim_C1_counterexample`). -/
theorem claim_C1_withdraw_below_min_errors (s : SP.State) (d : ℕ) (amount : ℤ)
    (do_claim : Bool) (hd : 0 < s.deposits d)
    (hlow : SP.withdraw_new_total s d amount do_claim < SP.MIN_BOLD_IN_SP) :
    SP.Result.isErr (SP.withdraw_from_sp s d amount do_claim) = true := by
  unfold SP.withdraw_from_sp
  rw [if_neg (by omega)]
  dsimp only
  rw [update_total_bold_deposits_snd, decrease_yield_gains_owed_total,
    update_deposit_and_snapshots_total]
  unfold SP.withdraw_new_total at hlow
  dsimp only at hlow
  rw [if_pos hlow]
  rfl

/-- Counterexample for C1 as stated: withdrawing the full 5-BOLD deposit
(leaving a total of `0 < MIN_BOLD_IN_SP`) raises, but the state the
exception leaves behind has the total deposits (and the depositor's
deposit) already zeroed — observable state is changed. -/
theorem claim_C1_counterexample :
    SP.withdraw_new_total spFiveDeposit 0 (5 * 10 ^ 18) true < SP.MIN_BOLD_IN_SP
    ∧ SP.Result.isErr (SP.withdraw_from_sp spFiveDeposit 0 (5 * 10 ^ 18) true) = true
    ∧ (SP.Result.state (SP.withdraw_from_sp spFiveDeposit 0 (5 * 10 ^ 18) true)).total_bold_deposits
        ≠ spFiveDeposit.total_bold_deposits
    ∧ (SP.Result.state (SP.withdraw_from_sp spFiveDeposit 0 (5 * 10 ^ 18) true)).deposits 0
        ≠ spFiveDeposit.deposits 0 := by
  refine ⟨by decide, by decide, by decide, by decide⟩

/-- Witness for the amended C1 at the same concrete pool. -/
theorem claim_C1_withdraw_below_min_errors_witness :
    0 < spFiveDeposit.deposits 0
    ∧ SP.withdraw_new_total spFiveDeposit 0 (5 * 10 ^ 18) true < SP.MIN_BOLD_IN_SP
    ∧ SP.Result.isErr (SP.withdraw_from_sp spFiveDeposit 0 (5 * 10 ^ 18) true) = true :=
  ⟨by decide, by decide,
    claim_C1_withdraw_below_min_errors spFiveDeposit 0 (5 * 10 ^ 18) true
      (by decide) (by decide)⟩

/-! ## Claim C3 -/

/-- C3 (code bug): the trove of `tmOneTrove` has ICR `2.0` (200%) at price
`2000`, well above 100%, yet `redeem_collateral` for 5000 BOLD redeems
nothing from it and leaves its debt untouched: the loop's skip test
compares the plain-ratio ICR against `self._100pct = 1e18`, so every trove
with a finite ICR below `1e18` is skipped. -/
theorem claim_C3_redeem_skips_healthy_trove :
    TM.getCurrentICR tmOneTrove 0 1 2000 = some (some 2)
    ∧ ¬ ((2 : ℚ) < 1)
    ∧ (TM.redeem_collateral tmOneTrove 0 2000 5000 0).map
        (fun r => (r.2.1, r.2.2.2)) = some (0, 0)
    ∧ (TM.redeem_collateral tmOneTrove 0 2000 5000 0).map
        (fun r => (r.1.troves 1).map (fun t => t.debt)) = some (some 10000) := by
  have hltd : TM.getLatestTroveData tmOneTrove 0 1 =
      some { redist_bold_debt_gain := 0, redist_coll_gain := 0, recorded_debt := 10000,
             annual_interest_rate := 0, weighted_recorded_debt := 0, accrued_interest := 0,
             accrued_batch_management_fee := 0, entire_debt := 10000, entire_coll := 10 } := by
    norm_num [TM.getLatestTroveData, tmOneTrove, TM.getInterestPeriod, TM.calcInterest,
      TM.DECIMAL_PRECISION]
  have hicr : TM.getCurrentICR tmOneTrove 0 1 2000 = some (some 2) := by
    norm_num [TM.getCurrentICR, hltd]
  have hstart : TM.redeemStart tmOneTrove = (1, false) := rfl
  have hprev : TM.getPrevTroveId tmOneTrove 1 = 0 := rfl
  have hshut : tmOneTrove.shutdown_time = 0 := rfl
  have hids : tmOneTrove.trove_ids = [1] := rfl
  refine ⟨hicr, by norm_num, ?_, ?_⟩
  · norm_num [TM.redeem_collateral, TM.redeemLoop, hstart, hprev, hshut, hids,
      hicr, TM.icrLt, TM.HUNDRED_PCT]
  · norm_num [TM.redeem_collateral, TM.redeemLoop, hstart, hprev, hshut, hids,
      hicr, TM.icrLt, TM.HUNDRED_PCT]
    exact ⟨_, rfl, rfl⟩

/-! ## Claim C8 -/

@[simp] theorem modifyTrove_sorted (s : TM.State) (tid : ℕ) (f : TM.Trove → TM.Trove) :
    (TM.modifyTrove s tid f).sorted_troves = s.sorted_troves := rfl

@[simp] theorem modifyTrove_last_zombie (s : TM.State) (tid : ℕ) (f : TM.Trove → TM.Trove) :
    (TM.modifyTrove s tid f).last_zombie_trove_id = s.last_zombie_trove_id := rfl

@[simp] theorem modifyBatch_sorted (s : TM.State) (addr : ℕ) (f : TM.Batch → TM.Batch) :
    (TM.modifyBatch s addr f).sorted_troves = s.sorted_troves := rfl

@[simp] theorem modifyBatch_last_zombie (s : TM.State) (addr : ℕ) (f : TM.Batch → TM.Batch) :
    (TM.modifyBatch s addr f).last_zombie_trove_id = s.last_zombie_trove_id := rfl

@[simp] theorem updateTroveRewardSnapshots_sorted (s : TM.State) (tid : ℕ) :
    (TM.updateTroveRewardSnapshots s tid).sorted_troves = s.sorted_troves := rfl

@[simp] theorem updateTroveRewardSnapshots_last_zombie (s : TM.State) (tid : ℕ) :
    (TM.updateTroveRewardSnapshots s tid).last_zombie_trove_id = s.last_zombie_trove_id := rfl

@[simp] theorem modifyTrove_troves_self (s : TM.State) (tid : ℕ) (f : TM.Trove → TM.Trove) :
    (TM.modifyTrove s tid f).troves tid = (s.troves tid).map f := by
  unfold TM.modifyTrove
  simp

@[simp] theorem modifyBatch_troves (s : TM.State) (addr : ℕ) (f : TM.Batch → TM.Batch) :
    (TM.modifyBatch s addr f).troves = s.troves := rfl

theorem updateBatchShares_invariants (s : TM.State) (tid addr : ℕ)
    (di dd nd bc bd : ℚ) (ck : Bool) (s₂ : TM.State)
    (h : TM.updateBatchShares s tid addr di dd nd bc bd ck = some s₂) :
    s₂.sorted_troves = s.sorted_troves ∧ s₂.last_zombie_trove_id = s.last_zombie_trove_id
    ∧ ∃ t₂, s₂.troves tid = some t₂ := by
  unfold TM.updateBatchShares at h
  split at h
  · rename_i t b ht hb
    dsimp only at h
    split at h
    · exact absurd h (by simp)
    · rename_i b' hb'
      split at h
      all_goals
        split at h
        · exact absurd h (by simp)
        · cases h
          refine ⟨by simp, by simp, ?_⟩
          simp [ht]
  · exact absurd h (by simp)

theorem updateStakeAndTotalStakes_invariants (s : TM.State) (tid : ℕ) (nc : ℚ)
    (s₂ : TM.State) (ns : ℚ)
    (h : TM.updateStakeAndTotalStakes s tid nc = some (s₂, ns)) :
    s₂.sorted_troves = s.sorted_troves ∧ s₂.last_zombie_trove_id = s.last_zombie_trove_id
    ∧ ∃ t₂, s₂.troves tid = some t₂ := by
  unfold TM.updateStakeAndTotalStakes at h
  split at h
  · exact absurd h (by simp)
  · rename_i t ht
    cases h
    refine ⟨by simp, by simp, ?_⟩
    simp [ht]

theorem applySingleRedemption_invariants (s : TM.State) (now : ℤ) (tid : ℕ)
    (ba : Option ℕ) (ltd : TM.LatestTroveData) (bl cl : ℚ)
    (s₂ : TM.State) (nd ow nw : ℚ)
    (h : TM.applySingleRedemption s now tid ba ltd bl cl = some (s₂, nd, ow, nw)) :
    s₂.sorted_troves = s.sorted_troves ∧ s₂.last_zombie_trove_id = s.last_zombie_trove_id
    ∧ nd = ltd.entire_debt - bl ∧ ∃ t₂, s₂.troves tid = some t₂ := by
  unfold TM.applySingleRedemption at h
  match ba, h with
  | some addr, h =>
    simp only [Option.pure_def, Option.bind_eq_bind, Option.some_bind,
      Option.bind_eq_some] at h
    obtain ⟨lbd, hlbd, s₁, hubs, ⟨s₃, ns₃⟩, h₃, h₄⟩ := h
    simp only [Option.some.injEq, Prod.mk.injEq] at h₄
    obtain ⟨hs₂, hnd, -, -⟩ := h₄
    obtain ⟨hss, hlz, t₃, ht₃⟩ := updateStakeAndTotalStakes_invariants s₁ tid _ s₃ ns₃ h₃
    obtain ⟨ha, hb, -⟩ := updateBatchShares_invariants _ tid addr _ _ _ _ _ _ _ hubs
    subst hs₂
    refine ⟨by simpa [hss] using ha, by simpa [hlz] using hb, hnd.symm, ?_⟩
    exact ⟨t₃, by simpa [TM.updateTroveRewardSnapshots] using ht₃⟩
  | none, h =>
    simp only [Option.pure_def, Option.bind_eq_bind, Option.some_bind,
      Option.bind_eq_some] at h
    obtain ⟨⟨s₃, ns₃⟩, h₃, h₄⟩ := h
    simp only [Option.some.injEq, Prod.mk.injEq] at h₄
    obtain ⟨hs₂, hnd, -, -⟩ := h₄
    obtain ⟨hss, hlz, t₃, ht₃⟩ := updateStakeAndTotalStakes_invariants _ tid _ s₃ ns₃ h₃
    subst hs₂
    refine ⟨by simpa using hss, by simpa using hlz, hnd.symm, ?_⟩
    exact ⟨t₃, by simpa [TM.updateTroveRewardSnapshots] using ht₃⟩

/-- C8: a redemption step (`_redeem_collateral_from_trove`) on a trove not
visited as the zombie pointer whose post-redemption debt falls below the
minimum debt (`MIN_DEBT / DECIMAL_PRECISION`) flips the trove's status to
Zombie, removes it from the ordered index, and — when the remaining debt is
positive — records it as the last-zombie pointer, so that the next
`redeem_collateral` call starts exactly there (`redeemStart`); a trove
visited as the zombie pointer and redeemed to zero debt resets the
pointer. -/
theorem claim_C8_zombie_transition (s : TM.State) (now : ℤ) (tid : ℕ)
    (max_bold price rate : ℚ) (htid : tid ≠ 0)
    (hlow : TM.redeemNewDebt s now tid max_bold < TM.MIN_DEBT / TM.DECIMAL_PRECISION) :
    (∀ s' sr, TM.redeemCollateralFromTrove s now tid false max_bold price rate
        = some (s', sr) →
      (s'.troves tid).map (fun t => t.status) = some TM.Status.zombie
      ∧ s'.sorted_troves = s.sorted_troves.erase tid
      ∧ (0 < TM.redeemNewDebt s now tid max_bold →
          s'.last_zombie_trove_id = tid ∧ TM.redeemStart s' = (tid, true)))
    ∧ (∀ s' sr, TM.redeemCollateralFromTrove s now tid true max_bold price rate
        = some (s', sr) →
      TM.redeemNewDebt s now tid max_bold = 0 → s'.last_zombie_trove_id = 0) := by
  constructor
  · intro s' sr h
    unfold TM.redeemCollateralFromTrove at h
    rcases hltd : TM.getLatestTroveData s now tid with _ | ltd
    · rw [hltd] at h
      simp at h
    rw [hltd] at h
    simp only [Option.pure_def, Option.bind_eq_bind, Option.some_bind,
      Option.bind_eq_some] at h
    obtain ⟨⟨s₂, nd, ow, nw⟩, happ, h⟩ := h
    obtain ⟨hss, hlz, hnd, t₂, ht₂⟩ :=
      applySingleRedemption_invariants _ _ _ _ _ _ _ _ _ _ _ happ
    have hndval : nd = TM.redeemNewDebt s now tid max_bold := by
      unfold TM.redeemNewDebt
      rw [hltd, hnd]
    simp only [Option.some.injEq, Prod.mk.injEq] at h
    obtain ⟨hs', -⟩ := h
    rw [if_pos (by rw [hndval]; exact hlow)] at hs'
    rw [if_pos (by simp : ¬ (false = true))] at hs'
    by_cases hpos : 0 < nd
    · rw [if_pos hpos] at hs'
      refine ⟨?_, ?_, ?_⟩
      · rw [← hs']
        simp [ht₂]
      · rw [← hs']
        simp [hss]
      · intro _
        rw [← hs']
        refine ⟨rfl, ?_⟩
        unfold TM.redeemStart
        simp [htid]
    · rw [if_neg hpos] at hs'
      refine ⟨?_, ?_, ?_⟩
      · rw [← hs']
        simp [ht₂]
      · rw [← hs']
        simp [hss]
      · intro hposd
        rw [hndval] at hpos
        exact absurd hposd hpos
  · intro s' sr h hzero
    unfold TM.redeemCollateralFromTrove at h
    rcases hltd : TM.getLatestTroveData s now tid with _ | ltd
    · rw [hltd] at h
      simp at h
    rw [hltd] at h
    simp only [Option.pure_def, Option.bind_eq_bind, Option.some_bind,
      Option.bind_eq_some] at h
    obtain ⟨⟨s₂, nd, ow, nw⟩, happ, h⟩ := h
    obtain ⟨hss, hlz, hnd, t₂, ht₂⟩ :=
      applySingleRedemption_invariants _ _ _ _ _ _ _ _ _ _ _ happ
    have hndval : nd = TM.redeemNewDebt s now tid max_bold := by
      unfold TM.redeemNewDebt
      rw [hltd, hnd]
    have hnd0 : nd = 0 := by rw [hndval, hzero]
    simp only [Option.some.injEq, Prod.mk.injEq] at h
    obtain ⟨hs', -⟩ := h
    rw [if_pos (by rw [hndval, hzero]; norm_num [TM.MIN_DEBT, TM.DECIMAL_PRECISION])] at hs'
    rw [if_neg (by simp : ¬ ¬ True)] at hs'
    rw [if_pos hnd0] at hs'
    rw [← hs']

theorem redeemCollateralFromTrove_nonbatch_isSome (s : TM.State) (now : ℤ) (tid : ℕ)
    (is_zombie : Bool) (max_bold price rate : ℚ) (t : TM.Trove)
    (ht : s.troves tid = some t) (hb : t.interest_batch_manager = none) :
    ∃ r, TM.redeemCollateralFromTrove s now tid is_zombie max_bold price rate = some r := by
  unfold TM.redeemCollateralFromTrove TM.applySingleRedemption TM.getLatestTroveData
    TM.getBatchManager TM.updateStakeAndTotalStakes
  rw [ht]
  simp only [hb, Option.pure_def, Option.bind_eq_bind, Option.some_bind]
  simp [TM.modifyTrove, Function.update, ht]

/-- Witness for C8: redeeming 9000 of the 10000-debt trove of `tmOneTrove`
(leaving 1000, below the 2000 minimum) makes it a Zombie, empties the
ordered index, and records it as the last-zombie pointer. -/
theorem claim_C8_zombie_transition_witness :
    (TM.redeemCollateralFromTrove tmOneTrove 0 1 false 9000 2000
        TM.REDEMPTION_RATE).map
      (fun r => ((r.1.troves 1).map (fun t => t.status), r.1.sorted_troves,
        r.1.last_zombie_trove_id, TM.redeemStart r.1))
      = some (some TM.Status.zombie, [], 1, (1, true)) := by
  have hltd : TM.getLatestTroveData tmOneTrove 0 1 =
      some { redist_bold_debt_gain := 0, redist_coll_gain := 0, recorded_debt := 10000,
             annual_interest_rate := 0, weighted_recorded_debt := 0, accrued_interest := 0,
             accrued_batch_management_fee := 0, entire_debt := 10000, entire_coll := 10 } := by
    norm_num [TM.getLatestTroveData, tmOneTrove, TM.getInterestPeriod, TM.calcInterest,
      TM.DECIMAL_PRECISION]
  have hnd : TM.redeemNewDebt tmOneTrove 0 1 9000 = 1000 := by
    unfold TM.redeemNewDebt
    rw [hltd]
    norm_num
  have h := (claim_C8_zombie_transition tmOneTrove 0 1 9000 2000 TM.REDEMPTION_RATE
    (by norm_num)
    (by rw [hnd]; norm_num [TM.MIN_DEBT, TM.DECIMAL_PRECISION])).1
  obtain ⟨⟨s', sr⟩, hrun⟩ := redeemCollateralFromTrove_nonbatch_isSome tmOneTrove 0 1
    false 9000 2000 TM.REDEMPTION_RATE _ rfl rfl
  obtain ⟨hstat, hsort, hptr⟩ := h s' sr hrun
  obtain ⟨hlz, hstart⟩ := hptr (by rw [hnd]; norm_num)
  rw [hrun]
  simp only [Option.map_some']
  rw [hstat, hsort, hlz, hstart]
  simp [tmOneTrove]

/-! ## Claim C10 -/

theorem getOffsetAndRedistributionVals_offset_le (d c b p : ℚ) (hb : 0 ≤ b) :
    (TM.getOffsetAndRedistributionVals d c b p).debt_to_offset ≤ b := by
  unfold TM.getOffsetAndRedistributionVals
  dsimp only
  by_cases h : 0 < b
  · rw [if_pos h]
    exact min_le_right _ _
  · rw [if_neg h]
    exact hb

theorem liquidateOne_offset_le (s : TM.State) (now : ℤ) (tid : ℕ) (rem price : ℚ)
    (hrem : 0 ≤ rem) (s' : TM.State) (ltd : TM.LatestTroveData)
    (single : TM.LiquidationValues)
    (h : TM.liquidateOne s now tid rem price = some (s', ltd, single)) :
    single.debt_to_offset ≤ rem := by
  unfold TM.liquidateOne at h
  simp only [Option.pure_def, Option.bind_eq_bind, Option.bind_eq_some] at h
  obtain ⟨ltd₀, hltd₀, h⟩ := h
  rcases hba : TM.getBatchManager s tid with _ | addr <;> rw [hba] at h <;> dsimp only at h
  · simp only [Option.some_bind, Option.bind_eq_some] at h
    obtain ⟨s₂, hclose, h⟩ := h
    simp only [Option.some.injEq, Prod.mk.injEq] at h
    obtain ⟨-, -, hsingle⟩ := h
    rw [← hsingle]
    exact getOffsetAndRedistributionVals_offset_le _ _ _ _ hrem
  · rcases hlbd : TM.getLatestBatchData s now addr with _ | lbd <;> rw [hlbd] at h
    · simp at h
    · simp only [Option.some_bind, Option.bind_eq_some] at h
      obtain ⟨s₂, hclose, h⟩ := h
      simp only [Option.some.injEq, Prod.mk.injEq] at h
      obtain ⟨-, -, hsingle⟩ := h
      rw [← hsingle]
      exact getOffsetAndRedistributionVals_offset_le _ _ _ _ hrem

theorem batchLiquidateLoop_invariant (now : ℤ) (price : ℚ) :
    ∀ (arr : List ℕ) (s : TM.State) (rem : ℚ) (totals : TM.LiquidationValues) (dd : ℚ)
      (s' : TM.State) (rem' : ℚ) (totals' : TM.LiquidationValues) (dd' : ℚ),
      0 ≤ rem →
      TM.batchLiquidateLoop s now price arr rem totals dd = some (s', rem', totals', dd') →
      totals'.debt_to_offset + rem' = totals.debt_to_offset + rem ∧ 0 ≤ rem' := by
  intro arr
  induction arr with
  | nil =>
    intro s rem totals dd s' rem' totals' dd' hrem h
    unfold TM.batchLiquidateLoop at h
    simp only [Option.some.injEq, Prod.mk.injEq] at h
    obtain ⟨-, h1, h2, -⟩ := h
    subst h1
    subst h2
    exact ⟨rfl, hrem⟩
  | cons tid rest ih =>
    intro s rem totals dd s' rem' totals' dd' hrem h
    unfold TM.batchLiquidateLoop at h
    split at h
    · exact ih s rem totals dd s' rem' totals' dd' hrem h
    · rename_i t ht
      split at h
      · exact ih s rem totals dd s' rem' totals' dd' hrem h
      · split at h
        · exact absurd h (by simp)
        · rename_i icr hicr
          split at h
          · split at h
            · exact absurd h (by simp)
            · rename_i s₂ ltd₂ single₂ hliq
              have hle := liquidateOne_offset_le s now tid rem price hrem _ _ _ hliq
              have hrem2 : 0 ≤ rem - single₂.debt_to_offset := by linarith
              obtain ⟨hsum, hpos⟩ := ih _ _ _ _ _ _ _ _ hrem2 h
              refine ⟨?_, hpos⟩
              rw [hsum]
              simp only [TM.addLiquidationValuesToTotals]
              ring
          · exact ih s rem totals dd s' rem' totals' dd' hrem h

/-- C10: in `batch_liquidate_troves`, the total debt offset against the
Stability Pool across all liquidated troves never exceeds
`max 0 (total BOLD deposits at entry - MIN_BOLD_IN_SP)` — the batch path
reserves at least the 1-BOLD minimum of pool deposits.  Stated both for the
per-trove loop (which fully determines the offsets of every call, including
calls that fail later) and for the whole call when it returns. -/
theorem claim_C10_batch_offset_bounded (s : TM.State) (now : ℤ) (price : ℚ)
    (arr : List ℕ) :
    (∀ s' rem' totals' dd',
      TM.batchLiquidateLoop s now price arr
          (max 0 (s.sp_total_bold_deposits - TM.MIN_BOLD_IN_SP)) {} 0
        = some (s', rem', totals', dd') →
      totals'.debt_to_offset ≤ max 0 (s.sp_total_bold_deposits - TM.MIN_BOLD_IN_SP))
    ∧ (∀ s' totals', TM.batch_liquidate_troves s now price arr = some (s', totals') →
      totals'.debt_to_offset ≤ max 0 (s.sp_total_bold_deposits - TM.MIN_BOLD_IN_SP)) := by
  have hb : (0:ℚ) ≤ max 0 (s.sp_total_bold_deposits - TM.MIN_BOLD_IN_SP) :=
    le_max_left _ _
  have hloop : ∀ s' rem' totals' dd',
      TM.batchLiquidateLoop s now price arr
          (max 0 (s.sp_total_bold_deposits - TM.MIN_BOLD_IN_SP)) {} 0
        = some (s', rem', totals', dd') →
      totals'.debt_to_offset ≤ max 0 (s.sp_total_bold_deposits - TM.MIN_BOLD_IN_SP) := by
    intro s' rem' totals' dd' h
    obtain ⟨hsum, hpos⟩ := batchLiquidateLoop_invariant now price arr s _ {} 0
      s' rem' totals' dd' hb h
    have hz : (({} : TM.LiquidationValues)).debt_to_offset = 0 := rfl
    rw [hz] at hsum
    linarith
  refine ⟨hloop, ?_⟩
  intro s' totals' h
  unfold TM.batch_liquidate_troves at h
  split at h
  · exact absurd h (by simp)
  · split at h
    · exact absurd h (by simp)
    · simp only [Option.pure_def, Option.bind_eq_bind, Option.bind_eq_some] at h
      obtain ⟨⟨s₁, rem₁, totals₁, dd₁⟩, hl, h⟩ := h
      dsimp only at h
      split at h
      · exact absurd h (by simp)
      · split at h
        · exact absurd h (by simp)
        · simp only [Option.some.injEq, Prod.mk.injEq] at h
          obtain ⟨-, ht⟩ := h
          rw [← ht]
          exact hloop s₁ rem₁ totals₁ dd₁ hl

/-- Witness for C10: batch-liquidating the ICR-1.0 trove of
`tmOneTroveWithSP` (pool deposits `1e18 + 20000`, budget `20000`) offsets
exactly its `10000` debt, within the bound. -/
theorem claim_C10_batch_offset_bounded_witness :
    (TM.batch_liquidate_troves tmOneTroveWithSP 0 1000 [1]).map
      (fun r => r.2.debt_to_offset) = some 10000
    ∧ (10000 : ℚ) ≤ max 0 (tmOneTroveWithSP.sp_total_bold_deposits - TM.MIN_BOLD_IN_SP) := by
  have hltd : TM.getLatestTroveData tmOneTroveWithSP 0 1 =
      some { redist_bold_debt_gain := 0, redist_coll_gain := 0, recorded_debt := 10000,
             annual_interest_rate := 0, weighted_recorded_debt := 0, accrued_interest := 0,
             accrued_batch_management_fee := 0, entire_debt := 10000, entire_coll := 10 } := by
    norm_num [TM.getLatestTroveData, tmOneTroveWithSP, tmOneTrove, TM.getInterestPeriod,
      TM.calcInterest, TM.DECIMAL_PRECISION]
  have hicr : TM.getCurrentICR tmOneTroveWithSP 0 1 1000 = some (some 1) := by
    norm_num [TM.getCurrentICR, hltd]
  have htr : tmOneTroveWithSP.troves 1 =
      some { debt := 10000, coll := 10, stake := 10, status := TM.Status.active } := rfl
  have hsp : tmOneTroveWithSP.sp_total_bold_deposits = 10 ^ 18 + 20000 := rfl
  have hmap : (TM.batch_liquidate_troves tmOneTroveWithSP 0 1000 [1]).map
      (fun r => r.2.debt_to_offset) = some 10000 := by
    norm_num [TM.batch_liquidate_troves, TM.batchLiquidateLoop, TM.liquidateOne,
      TM.getBatchManager, htr, hsp, hltd, hicr, TM.icrLt, TM.MCR, TM.isActiveOrZombie,
      TM.getCollGasCompensation, TM.COLL_GAS_COMPENSATION_DIVISOR,
      TM.COLL_GAS_COMPENSATION_CAP, TM.getOffsetAndRedistributionVals,
      TM.getCollPenaltyAndSurplus, TM.LIQUIDATION_PENALTY_SP,
      TM.LIQUIDATION_PENALTY_REDISTRIBUTION, TM.DECIMAL_PRECISION, TM.MIN_BOLD_IN_SP,
      TM.closeTrove, TM.modifyTrove, TM.modifyBatch,
      TM.addLiquidationValuesToTotals, TM.ETH_GAS_COMPENSATION,
      TM.updateSystemSnapshotsExcludeCollRemainder]
  refine ⟨hmap, ?_⟩
  cases hrun : TM.batch_liquidate_troves tmOneTroveWithSP 0 1000 [1] with
  | none =>
    rw [hrun] at hmap
    simp at hmap
  | some r =>
    have hb := (claim_C10_batch_offset_bounded tmOneTroveWithSP 0 1000 [1]).2 r.1 r.2
      (by rw [hrun])
    rw [hrun] at hmap
    simp only [Option.map_some', Option.some.injEq] at hmap
    rw [← hmap]
    exact hb
